import Mathlib

/-!
Verification development for the `oktadance` Go library (client-side Okta
authentication dance).  The definitions below are a shallow embedding of the
repository's Go source:

* `lib.go` / `unnamed/part_000` — the `Dance` client: `Authenticate`,
  `Authorize`, `Session`, `CloseSession`, and the diagnostic `pre`/`post`
  hooks;
* `mfa_console.go` (second compilation unit, `mfa.go`) — the `Factor`
  dispatch and the two factor-protocol polling loops
  (`pushFactor.perform`, `inputFactor.perform`);
* the `oktaUserAuthn` DTO family.

External collaborators (the HTTP transport, the human-driven `Multifactor`
handler, and Go's `encoding/json`) are modelled at their interface
boundary: the provider is a scripted list of responses, each carrying both
its raw body bytes and the outcome Go's `json.Unmarshal` produces on those
bytes (the populated struct value plus an optional decode error — Go's
decoder fills the fields it can even when it reports an error), and the
handler is a scripted `Select` result and list of `ReadCode` results.
-/

namespace Oktadance

/-- Configuration of the `Dance` client (Go struct `Dance`): the fields the
embedded operations consume.  The transport handle and logger function are
collaborators; `hasLogger` records whether a logger was configured and
`prettyJSON` the `WithPrettyJSON` option. -/
structure Dance where
  oktaDomain : String
  clientID : String
  hasLogger : Bool
  prettyJSON : Bool
  deriving Repr, DecidableEq

/-- Go struct `factor`: the data shared by both factor implementations. -/
structure FactorData where
  id : String
  provider : String
  factorType : String
  deriving Repr, DecidableEq

/-- The Go `Factor` interface has exactly two implementations, `pushFactor`
and `inputFactor`, each wrapping a `factor` value.  We model the interface
as a sum of the two. -/
inductive Factor where
  | push (f : FactorData)
  | input (f : FactorData)
  deriving Repr, DecidableEq

/-- `Factor.ID()` of either implementation. -/
def Factor.id : Factor → String
  | .push f => f.id
  | .input f => f.id

/-- Go struct `oktaUserAuthnFactor` (the fields the core consumes: `ID`,
`FactorType`, `Provider`; the `Embedded`/`Profile` sub-structures are
decoded but never read by the core). -/
structure OktaUserAuthnFactor where
  id : String
  factorType : String
  provider : String
  deriving Repr, DecidableEq

/-- `oktaUserAuthnFactor.factor()`: dispatch on the provider-supplied type
tag — `"push"` selects the push protocol, anything else the one-time-code
protocol. -/
def OktaUserAuthnFactor.factor (o : OktaUserAuthnFactor) : Factor :=
  if o.factorType = "push" then
    .push ⟨o.id, o.provider, o.factorType⟩
  else
    .input ⟨o.id, o.provider, o.factorType⟩

/-- Go struct `oktaUserAuthnEmbedded` (field `Factors`; the singular
`Factor` field is decoded but unused by the core). -/
structure OktaUserAuthnEmbedded where
  factors : List OktaUserAuthnFactor
  deriving Repr, DecidableEq

/-- `oktaUserAuthnEmbedded.factors()`. -/
def OktaUserAuthnEmbedded.factorList (e : OktaUserAuthnEmbedded) : List Factor :=
  e.factors.map OktaUserAuthnFactor.factor

/-- Go struct `oktaUserAuthn`: the provider's authentication-state DTO. -/
structure OktaUserAuthn where
  stateToken : String
  sessionToken : String
  expiresAt : String
  status : String
  embedded : OktaUserAuthnEmbedded
  factorResult : String
  deriving Repr, DecidableEq

/-- The zero value `oktaUserAuthn{}` that `json.Unmarshal` starts from. -/
def OktaUserAuthn.zero : OktaUserAuthn :=
  ⟨"", "", "", "", ⟨[]⟩, ""⟩

/-- One scripted provider response to a request, as read by the caller
(`ioutil.ReadAll` result), paired with what `json.Unmarshal(body, &auth)`
yields on those bytes: the resulting struct value `authn` and the optional
decode error.  Go's decoder populates every field it can even when it
returns an error, so the value and the error are independent data. -/
structure VerifyResponse where
  body : String
  authn : OktaUserAuthn
  unmarshalErr : Option String
  deriving Repr, DecidableEq

/-- An outbound HTTP request as the embedding observes it: the URL, the
JSON-object content of the marshalled body (Go marshals a
`map[string]interface{}` with its keys in sorted order), and the request
context — `http.NewRequest` leaves the background context (`none`); only a
`req.WithContext(ctx)` call attaches the caller's context (`some ctxId`). -/
structure HttpRequest where
  url : String
  body : List (String × String)
  ctx : Option Nat
  deriving Repr, DecidableEq

/-- Errors returned by the embedded operations, tagged by how the Go code
constructs them. -/
inductive OErr where
  /-- an error returned from `json.Unmarshal` and propagated by the caller -/
  | jsonDecode (msg : String)
  /-- `errors.New(msg)` / a raw-body error -/
  | plain (msg : String)
  /-- `fmt.Errorf("<tag>: %w"/"%s", ...)` — a wrapping error -/
  | wrapped (tag : String) (msg : String)
  deriving Repr, DecidableEq

/-- Outcome of one embedded operation run. -/
inductive Outcome where
  /-- a `SessionToken` was returned with nil error -/
  | ok (tok : String)
  /-- a non-nil error was returned -/
  | err (e : OErr)
  /-- the Go code panics (nil-interface method call) -/
  | crash (msg : String)
  /-- the script ran out: the Go code would block on the next external
  event (human input or provider response); no result yet -/
  | pending
  deriving Repr, DecidableEq

/-- Trace and result of a factor-protocol run: the verify requests it sent,
how many times it invoked the handler's `ReadCode`, the fixed
`time.Sleep` waits (in seconds) it performed between iterations, and the
outcome. -/
structure RunResult where
  requests : List HttpRequest
  reads : Nat
  waits : List Nat
  outcome : Outcome
  deriving Repr, DecidableEq

/-- The factor-verification endpoint URL
(`https://{domain}/api/v1/authn/factors/{factorId}/verify`). -/
def verifyURL (d : Dance) (f : FactorData) : String :=
  "https://" ++ d.oktaDomain ++ "/api/v1/authn/factors/" ++ f.id ++ "/verify"

/-- `pushFactor.perform` (mfa_console.go:200–243).  Each iteration builds a
verify request whose body is the marshalled map `{"stateToken": stateToken}`
(no `WithContext` call is made, so `ctx = none`), sends it, reads the body,
runs `json.Unmarshal(buf, &auth)` with the returned error discarded, then:
`SUCCESS` returns the session token; any status other than `MFA_CHALLENGE`
returns `errors.New(string(buf))`; otherwise the state token is replaced by
the response's and the loop sleeps 2 seconds and repeats.  The `Multifactor`
argument is ignored (`_`): no human input is read. -/
def pushPerform (d : Dance) (f : FactorData) :
    List VerifyResponse → String → RunResult
  | [], _ => ⟨[], 0, [], .pending⟩
  | r :: rest, stateToken =>
    let req : HttpRequest := ⟨verifyURL d f, [("stateToken", stateToken)], none⟩
    let auth := r.authn
    if auth.status = "SUCCESS" then
      ⟨[req], 0, [], .ok auth.sessionToken⟩
    else if auth.status ≠ "MFA_CHALLENGE" then
      ⟨[req], 0, [], .err (.plain r.body)⟩
    else
      let k := pushPerform d f rest auth.stateToken
      ⟨req :: k.requests, 0, 2 :: k.waits, k.outcome⟩

/-- `inputFactor.perform` (mfa_console.go:145–194).  Each iteration first
obtains a code from `m.ReadCode(f)` — modelled by the next entry of the
scripted `codes` list, `none` for the whole script modelling a nil
`Multifactor` interface, whose method call panics —, then sends a verify
request whose body is the marshalled map
`{"stateToken": stateToken, "passCode": code}` (keys in Go's sorted marshal
order; no `WithContext` call, so `ctx = none`), reads the body, runs
`json.Unmarshal` with the returned error discarded, and branches exactly as
the push loop does, sleeping 2 seconds before the next iteration. -/
def inputPerform (d : Dance) (f : FactorData) :
    Option (List (Except String String)) → List VerifyResponse → String → RunResult
  | none, _, _ => ⟨[], 0, [], .crash "nil Multifactor: ReadCode on nil interface"⟩
  | some [], _, _ => ⟨[], 0, [], .pending⟩
  | some (.error e :: _), _, _ =>
      ⟨[], 1, [], .err (.wrapped "error reading MFA input" e)⟩
  | some (.ok _ :: _), [], _ => ⟨[], 1, [], .pending⟩
  | some (.ok code :: cs), r :: rest, stateToken =>
    let req : HttpRequest :=
      ⟨verifyURL d f, [("passCode", code), ("stateToken", stateToken)], none⟩
    let auth := r.authn
    if auth.status = "SUCCESS" then
      ⟨[req], 1, [], .ok auth.sessionToken⟩
    else if auth.status ≠ "MFA_CHALLENGE" then
      ⟨[req], 1, [], .err (.plain r.body)⟩
    else
      let k := inputPerform d f (some cs) rest auth.stateToken
      ⟨req :: k.requests, 1 + k.reads, 2 :: k.waits, k.outcome⟩

/-- `Factor.perform` dispatch: the interface method resolves to the
implementation selected by `oktaUserAuthnFactor.factor()`. -/
def Factor.perform (f : Factor) (d : Dance)
    (codes : Option (List (Except String String)))
    (responses : List VerifyResponse) (stateToken : String) : RunResult :=
  match f with
  | .push fd => pushPerform d fd responses stateToken
  | .input fd => inputPerform d fd codes responses stateToken

/-- The scripted `Multifactor` handler supplied to `Authenticate`:
the result its `Select` would return, and the successive results of its
`ReadCode` calls. -/
structure MFAScript where
  selectResult : Except String (Option Factor)
  codes : List (Except String String)
  deriving Repr

/-- The primary-authentication request of `Authenticate`
(part_000:119–131): a POST of the marshalled credentials map to
`https://{domain}/api/v1/authn`, with `req = req.WithContext(ctx)`
attaching the caller's context before the send. -/
def authnRequest (d : Dance) (ctxId : Nat) (username password : String) :
    HttpRequest :=
  ⟨"https://" ++ d.oktaDomain ++ "/api/v1/authn",
   [("password", password), ("username", username)], some ctxId⟩

/-- The provider's response to the primary authentication request, as read
by `Authenticate`, with the outcome of `json.Unmarshal(rb, &ar)`. -/
structure AuthnResponse where
  body : String
  authn : OktaUserAuthn
  unmarshalErr : Option String
  deriving Repr, DecidableEq

/-- `Dance.Authenticate` (part_000:110–183) from the point its primary
response is in hand: `json.Unmarshal` errors are returned; on status
`MFA_REQUIRED` exactly one offered factor is selected automatically, zero
factors is `errors.New("MFA needed but no factoirs available")`, and with
two or more the handler's `Select` is consulted — a method call that
panics when no handler was supplied (nil interface), returns the wrapped
error `fmt.Errorf("error selecting MFA factor: %w", err)` when the handler
errors, and `errors.New("no MFA was factor selected")` when it returns
nil; the selected factor's `perform` then runs against the verify script.
A status that is neither `MFA_REQUIRED` nor `SUCCESS` yields
`fmt.Errorf("Status: %s", ar.Status)`; `SUCCESS` returns the session
token.  The `RunResult.requests` trace lists the verify requests sent. -/
def Dance.Authenticate (d : Dance) (mfa : Option MFAScript)
    (primary : AuthnResponse) (verify : List VerifyResponse) : RunResult :=
  match primary.unmarshalErr with
  | some e => ⟨[], 0, [], .err (.jsonDecode e)⟩
  | none =>
    let ar := primary.authn
    if ar.status = "MFA_REQUIRED" then
      match ar.embedded.factors with
      | [f0] => f0.factor.perform d (mfa.map MFAScript.codes) verify ar.stateToken
      | [] => ⟨[], 0, [], .err (.plain "MFA needed but no factoirs available")⟩
      | _ =>
        match mfa with
        | none => ⟨[], 0, [], .crash "nil Multifactor: Select on nil interface"⟩
        | some m =>
          match m.selectResult with
          | .error e => ⟨[], 0, [], .err (.wrapped "error selecting MFA factor" e)⟩
          | .ok none => ⟨[], 0, [], .err (.plain "no MFA was factor selected")⟩
          | .ok (some f) => f.perform d (some m.codes) verify ar.stateToken
    else if ar.status ≠ "SUCCESS" then
      ⟨[], 0, [], .err (.wrapped "Status" ar.status)⟩
    else
      ⟨[], 0, [], .ok ar.sessionToken⟩

/-- An HTTP cookie as `res.Cookies()` yields it. -/
structure Cookie where
  name : String
  value : String
  deriving Repr, DecidableEq

/-- The response `Authorize` inspects: status code, body bytes, and the
parsed `Set-Cookie` cookies in response order. -/
structure AuthorizeResponse where
  statusCode : Nat
  body : String
  cookies : List Cookie
  deriving Repr, DecidableEq

/-- `Dance.Authorize` (part_000:191–235) from the point its response is in
hand: status ≥ 400 returns `errors.New(string(buf))` with the body as the
message; otherwise `sid` starts empty and the loop over `res.Cookies()`
overwrites it with the value of every cookie named `"sid"`, so the last
one wins, and the result is returned with nil error. -/
def Dance.Authorize (res : AuthorizeResponse) : Except OErr String :=
  if res.statusCode ≥ 400 then
    .error (.plain res.body)
  else
    .ok (res.cookies.foldl (fun sid c => if c.name = "sid" then c.value else sid) "")

/-- Go struct `Session` (the Okta session model); `time.Time` fields are
modelled by their RFC 3339 JSON text, the nested `_links` structures by
their `href`/`hints.allow` content. -/
structure Session where
  id : String
  userId : String
  login : String
  createdAt : String
  expiresAt : String
  status : String
  lastPasswordVerification : String
  lastFactorVerification : String
  amr : List String
  idpId : String
  idpType : String
  mfaActive : Bool
  deriving Repr, DecidableEq

/-- The response `Session` inspects: status code, the `ioutil.ReadAll`
outcome, and the `json.Unmarshal(body, sess)` outcome on the read bytes. -/
structure SessionResponse where
  statusCode : Nat
  bodyReadErr : Option String
  sess : Session
  unmarshalErr : Option String
  deriving Repr, DecidableEq

/-- `Dance.Session` (part_000:241–273) from the point its response is in
hand: a body-read error is returned, a `json.Unmarshal` error is returned,
and otherwise the decoded session is returned — the status code is never
inspected. -/
def Dance.Session (res : SessionResponse) : Except OErr Session :=
  match res.bodyReadErr with
  | some e => .error (.plain e)
  | none =>
    match res.unmarshalErr with
    | some e => .error (.jsonDecode e)
    | none => .ok res.sess

/-! ### The diagnostic hooks `pre` / `post` and the pretty-JSON rewrite

`Dance.pre` (part_000:343–370) and `Dance.post` (part_000:372–398) are the
hooks invoked around each outbound call.  With `prettyJSON` set and a
non-nil body, both read the whole body, run
`json.Unmarshal(body, &s)` into an empty `map[string]interface{}` — the
returned error is overwritten, unchecked, by the next assignment — and
replace the body with `json.MarshalIndent(s, "", "  ")`, which emits the
map's keys in sorted order.  We model body bytes at the level of their
JSON content: a body is either invalid JSON or a JSON value, and
`Unmarshal` into a map succeeds exactly on a top-level object, leaving the
map empty otherwise (Go's decoder assigns object keys in order, a later
duplicate overwriting an earlier one). -/

/-- A JSON value (numbers restricted to integers — enough for this
library's traffic model). -/
inductive Json where
  | null
  | bool (b : Bool)
  | num (n : Int)
  | str (s : String)
  | arr (elems : List Json)
  | obj (fields : List (String × Json))
  deriving Repr

/-- The content of a request/response body: either bytes that are not
valid JSON, or a JSON value. -/
inductive HttpBody where
  | invalid (raw : String)
  | val (j : Json)
  deriving Repr

/-- One Go map assignment `m[k] = v` on an association-list model of
`map[string]interface{}`: replace the binding if the key is present,
append it otherwise. -/
def mapUpd : List (String × Json) → String → Json → List (String × Json)
  | [], k, v => [(k, v)]
  | p :: m, k, v => if p.1 = k then (k, v) :: m else p :: mapUpd m k v

/-- `json.Unmarshal` of a JSON object's fields into a
`map[string]interface{}`: the decoder walks the fields in order, each
assignment overwriting any earlier binding of the same key. -/
def goUnmarshalMap (fields : List (String × Json)) : List (String × Json) :=
  fields.foldl (fun m p => mapUpd m p.1 p.2) []

/-- Insert a binding into a key-sorted association list. -/
def insortKey (p : String × Json) :
    List (String × Json) → List (String × Json)
  | [] => [p]
  | q :: m => if p.1 ≤ q.1 then p :: q :: m else q :: insortKey p m

/-- Sort an association list by key (insertion sort) — the key order
`json.Marshal`/`MarshalIndent` emits a Go map in. -/
def sortByKey : List (String × Json) → List (String × Json)
  | [] => []
  | p :: m => insortKey p (sortByKey m)

/-- The body rewrite both hooks perform when `prettyJSON` is set and the
body is non-nil (`pre`: part_000:344–357, `post`: part_000:373–385): the
bytes are replaced by `MarshalIndent` of the map `Unmarshal` produced.
A JSON-object body yields its object content with later duplicate keys
winning and keys in sorted order.  A top-level JSON `null` is special:
`Unmarshal` of `null` into the map succeeds by setting the map to nil,
and `MarshalIndent` of a nil map emits `null`, so a `null` body is left
unchanged.  Any other body — non-object, non-null JSON, or invalid bytes
— leaves the map empty (the `Unmarshal` error having been discarded) and
is replaced by the empty object. -/
def rewriteJSON : HttpBody → HttpBody
  | .val (.obj fields) => .val (.obj (sortByKey (goUnmarshalMap fields)))
  | .val .null => .val .null
  | _ => .val (.obj [])

/-- `Dance.pre`'s effect on the request body (the logging part only
observes): `if d.prettyJSON && req.Body != nil` the body is rewritten. -/
def preBody (d : Dance) : Option HttpBody → Option HttpBody
  | none => none
  | some b => if d.prettyJSON then some (rewriteJSON b) else some b

/-- `Dance.post`'s effect on the response body (the logging part only
observes): `if d.prettyJSON && res.Body != nil` the body is rewritten. -/
def postBody (d : Dance) : Option HttpBody → Option HttpBody
  | none => none
  | some b => if d.prettyJSON then some (rewriteJSON b) else some b

/-! ### Observation helpers and concrete fixtures -/

/-- Whether a run ended with a non-nil Go error return. -/
def Outcome.isErr : Outcome → Bool
  | .err _ => true
  | _ => false

/-- First-match lookup in an association list — how a reader interprets a
re-encoded JSON object. -/
def jlook : List (String × Json) → String → Option Json
  | [], _ => none
  | p :: m, k => if p.1 = k then some p.2 else jlook m k

/-- Last-wins lookup in an association list — the JSON-object semantics
Go's decoder applies to duplicate keys. -/
def jlookLast : List (String × Json) → String → Option Json
  | [], _ => none
  | p :: m, k =>
    match jlookLast m k with
    | some v => some v
    | none => if p.1 = k then some p.2 else none

/-- The keys of an association list. -/
def keysOf (m : List (String × Json)) : List String :=
  m.map Prod.fst

/-- A concrete client configuration used by witnesses. -/
def danceX : Dance :=
  ⟨"example.okta.com", "client-1", false, false⟩

/-- A concrete push factor used by witnesses. -/
def factorX : FactorData :=
  ⟨"opfh52xcuft-id", "OKTA", "push"⟩

/-- A scripted `MFA_CHALLENGE` verify response rotating the state token. -/
def challengeResp (st : String) : VerifyResponse :=
  ⟨"challenge-body",
   { stateToken := st, sessionToken := "", expiresAt := "",
     status := "MFA_CHALLENGE", embedded := ⟨[]⟩, factorResult := "WAITING" },
   none⟩

/-- A scripted `SUCCESS` verify response carrying the session token. -/
def successResp (tok : String) : VerifyResponse :=
  ⟨"success-body",
   { stateToken := "", sessionToken := tok, expiresAt := "",
     status := "SUCCESS", embedded := ⟨[]⟩, factorResult := "" },
   none⟩

/-- A concrete session snapshot used by witnesses. -/
def sessX : Session :=
  ⟨"102yZ-id", "00u-id", "user@example.com", "2019-01-01T00:00:00.000Z",
   "2019-01-01T02:00:00.000Z", "ACTIVE", "2019-01-01T00:00:00.000Z",
   "2019-01-01T00:00:00.000Z", ["pwd"], "0oa-id", "OKTA", false⟩

/-- A verify response whose body fails to decode (valid JSON, but a field
of the wrong type, so Go's `Unmarshal` returns an error after populating
the fields it could — here `status` and `sessionToken`). -/
def badSuccessResp : VerifyResponse :=
  ⟨"bad-success-body",
   { stateToken := "", sessionToken := "tok", expiresAt := "",
     status := "SUCCESS", embedded := ⟨[]⟩, factorResult := "" },
   some "json: cannot unmarshal number into Go struct field oktaUserAuthn._embedded"⟩

/-- A primary authentication response offering two factors. -/
def twoFactorPrimary : AuthnResponse :=
  ⟨"mfa-required-body",
   { stateToken := "st0", sessionToken := "", expiresAt := "",
     status := "MFA_REQUIRED",
     embedded := ⟨[⟨"opfh52xcuft-id", "push", "OKTA"⟩,
                   ⟨"ostf1fmEC-id", "token:software:totp", "OKTA"⟩]⟩,
     factorResult := "" },
   none⟩

/-- A primary authentication response offering zero factors. -/
def zeroFactorPrimary : AuthnResponse :=
  ⟨"mfa-required-body",
   { stateToken := "st0", sessionToken := "", expiresAt := "",
     status := "MFA_REQUIRED", embedded := ⟨[]⟩, factorResult := "" },
   none⟩

/-- The concrete client configuration with `WithPrettyJSON` set. -/
def prettyDanceX : Dance :=
  ⟨"example.okta.com", "client-1", true, true⟩

/-!  ## Theorems  -/

/-- The cookie scan of `Authorize` — a fold overwriting `sid` with every
matching cookie's value — yields the value of the last cookie named
`sid`, or the initial value when none matches. -/
theorem sid_foldl_eq_getLastD (cs : List Cookie) (init : String) :
    cs.foldl (fun sid c => if c.name = "sid" then c.value else sid) init
      = ((cs.filter (fun c => c.name == "sid")).map Cookie.value).getLastD init := by
  induction cs generalizing init with
  | nil => rfl
  | cons c cs ih =>
    by_cases h : c.name = "sid"
    · rw [List.foldl_cons, if_pos h, ih]
      simp only [List.filter_cons, h, beq_self_eq_true, if_true, List.map_cons,
        List.getLastD_cons]
    · rw [List.foldl_cons, if_neg h, ih]
      simp [List.filter_cons, h]

/-- On a below-400 response, `Authorize` returns the value of the last
`sid` cookie (the empty string when none exists). -/
theorem authorize_below400 (res : AuthorizeResponse)
    (h : res.statusCode < 400) :
    Dance.Authorize res =
      .ok (((res.cookies.filter (fun c => c.name == "sid")).map Cookie.value).getLastD "") := by
  simp only [Dance.Authorize, if_neg (by omega : ¬ res.statusCode ≥ 400)]
  rw [sid_foldl_eq_getLastD]

/-- Claim C7: `Authorize` on a response with status ≥ 400 returns an error
whose message is the response body; on status < 400 it returns the value
of the last cookie named `sid` (in particular `abc123` for a lone
`Set-Cookie: sid=abc123`), and the empty identifier with no error when no
`sid` cookie is present. -/
theorem c7_authorize_status_and_sid (res : AuthorizeResponse) :
    (400 ≤ res.statusCode → Dance.Authorize res = .error (.plain res.body)) ∧
    (res.statusCode < 400 →
      Dance.Authorize res =
        .ok (((res.cookies.filter (fun c => c.name == "sid")).map Cookie.value).getLastD "")) ∧
    (res.statusCode < 400 → (∀ c ∈ res.cookies, c.name ≠ "sid") →
      Dance.Authorize res = .ok "") := by
  refine ⟨fun h => ?_, fun h => authorize_below400 res h, fun h hn => ?_⟩
  · simp [Dance.Authorize, h]
  · have hfil : res.cookies.filter (fun c => c.name == "sid") = [] := by
      simp only [List.filter_eq_nil_iff]
      intro c hc
      simpa using hn c hc
    rw [authorize_below400 res h, hfil]
    rfl

/-- Witness for C7 at concrete inputs: a 200 response whose only cookie is
`sid=abc123` yields `abc123`; a 401 response returns its body as the
error. -/
theorem c7_authorize_witness :
    Dance.Authorize ⟨200, "", [⟨"sid", "abc123"⟩]⟩ = .ok "abc123" ∧
    Dance.Authorize ⟨401, "denied-body", []⟩ = .error (.plain "denied-body") := by
  constructor
  · exact (c7_authorize_status_and_sid ⟨200, "", [⟨"sid", "abc123"⟩]⟩).2.1 (by decide)
  · exact (c7_authorize_status_and_sid ⟨401, "denied-body", []⟩).1 (by decide)

/-- Claim C10: when a success response carries two or more cookies named
`sid`, `Authorize` returns the value of the last such cookie in the
response's cookie order. -/
theorem c10_authorize_last_sid_wins (res : AuthorizeResponse)
    (h400 : res.statusCode < 400) (last : Cookie)
    (hlast : (res.cookies.filter (fun c => c.name == "sid")).getLast? = some last)
    (h2 : 2 ≤ (res.cookies.filter (fun c => c.name == "sid")).length) :
    Dance.Authorize res = .ok last.value := by
  rw [authorize_below400 res h400]
  congr 1
  rw [List.getLastD_eq_getLast?, List.getLast?_map, hlast]
  rfl

/-- Witness for C10: status 200 with `sid=abc` before `sid=def` returns
`def`. -/
theorem c10_authorize_last_sid_witness :
    Dance.Authorize ⟨200, "", [⟨"sid", "abc"⟩, ⟨"other", "x"⟩, ⟨"sid", "def"⟩]⟩
      = .ok "def" :=
  c10_authorize_last_sid_wins ⟨200, "", [⟨"sid", "abc"⟩, ⟨"other", "x"⟩, ⟨"sid", "def"⟩]⟩
    (by decide) ⟨"sid", "def"⟩ (by decide) (by decide)

/-- Claim C9: `Session` never inspects the HTTP status code — its result
is unchanged under any replacement of the status code — and whenever the
body reads and decodes successfully it returns the decoded session
snapshot with no error, whatever the status (including 4xx/5xx). -/
theorem c9_session_ignores_status (res : SessionResponse) (s : Nat) :
    Dance.Session {res with statusCode := s} = Dance.Session res ∧
    (res.bodyReadErr = none → res.unmarshalErr = none →
      Dance.Session res = .ok res.sess) := by
  constructor
  · rfl
  · intro h1 h2
    simp [Dance.Session, h1, h2]

/-- Witness for C9: a 503 response whose body still decodes yields the
decoded session, identically to a 200 response. -/
theorem c9_session_witness :
    Dance.Session ⟨503, none, sessX, none⟩ = Dance.Session ⟨200, none, sessX, none⟩ ∧
    Dance.Session ⟨200, none, sessX, none⟩ = .ok sessX := by
  constructor
  · exact (c9_session_ignores_status ⟨200, none, sessX, none⟩ 503).1
  · exact (c9_session_ignores_status ⟨200, none, sessX, none⟩ 503).2 rfl rfl

/-- Claim C1: against a scripted provider answering `MFA_CHALLENGE`,
`MFA_CHALLENGE`, `SUCCESS`, the push protocol sends exactly three verify
requests, each carrying only the state token in its body (and soliciting
no human input: zero `ReadCode` calls), threads the state token of each
challenge response into the next request, sleeps the fixed 2-second wait
between iterations, and returns the session token of the final `SUCCESS`
response. -/
theorem c1_push_polling (d : Dance) (f : FactorData) (st0 : String)
    (r1 r2 r3 : VerifyResponse)
    (h1 : r1.authn.status = "MFA_CHALLENGE")
    (h2 : r2.authn.status = "MFA_CHALLENGE")
    (h3 : r3.authn.status = "SUCCESS") :
    pushPerform d f [r1, r2, r3] st0 =
      ⟨[⟨verifyURL d f, [("stateToken", st0)], none⟩,
        ⟨verifyURL d f, [("stateToken", r1.authn.stateToken)], none⟩,
        ⟨verifyURL d f, [("stateToken", r2.authn.stateToken)], none⟩],
       0, [2, 2], .ok r3.authn.sessionToken⟩ := by
  simp [pushPerform, h1, h2, h3]

/-- Witness for C1: the scripted three-response push run at concrete
values. -/
theorem c1_push_polling_witness :
    pushPerform danceX factorX
        [challengeResp "st1", challengeResp "st2", successResp "tok"] "st0" =
      ⟨[⟨verifyURL danceX factorX, [("stateToken", "st0")], none⟩,
        ⟨verifyURL danceX factorX, [("stateToken", "st1")], none⟩,
        ⟨verifyURL danceX factorX, [("stateToken", "st2")], none⟩],
       0, [2, 2], .ok "tok"⟩ :=
  c1_push_polling danceX factorX "st0"
    (challengeResp "st1") (challengeResp "st2") (successResp "tok") rfl rfl rfl

/-- When the handler's code reads all succeed and every scripted verify
response reports `MFA_CHALLENGE` or `SUCCESS`, the one-time-code loop
never returns an error: a wrong code (a re-issued challenge) only causes
another iteration. -/
theorem inputPerform_no_err_of_good_statuses (d : Dance) (f : FactorData) :
    ∀ (codes : List (Except String String)) (responses : List VerifyResponse)
      (st : String),
      (∀ c ∈ codes, ∃ s, c = .ok s) →
      (∀ r ∈ responses, r.authn.status = "MFA_CHALLENGE" ∨ r.authn.status = "SUCCESS") →
      ∀ e, (inputPerform d f (some codes) responses st).outcome ≠ .err e := by
  intro codes
  induction codes with
  | nil =>
    intro responses st _ _ e
    simp [inputPerform]
  | cons c cs ih =>
    intro responses st hc hr e
    obtain ⟨s, rfl⟩ := hc c (List.mem_cons_self c cs)
    match responses with
    | [] => simp [inputPerform]
    | r :: rest =>
      have hstat := hr r (List.mem_cons_self r rest)
      simp only [inputPerform]
      rcases hstat with h | h
      · rw [if_neg (by simp [h]), if_neg (by simp [h])]
        exact ih rest r.authn.stateToken
          (fun c hcm => hc c (List.mem_cons_of_mem _ hcm))
          (fun x hx => hr x (List.mem_cons_of_mem _ hx)) e
      · rw [if_pos h]
        simp

/-- Claim C2: with a scripted handler supplying a wrong then a correct
code and the provider answering `MFA_CHALLENGE` then `SUCCESS`, the
one-time-code protocol sends exactly two verify requests — each carrying
the current state token and the code just read — invokes `ReadCode`
exactly twice, treats the wrong code as a retry (the state token of the
challenge response feeds the second request), and returns the session
token of the second response; moreover, whenever all code reads succeed
and every scripted status is `MFA_CHALLENGE` or `SUCCESS`, the protocol
never returns an error — only a non-challenge, non-success status can
make it fail. -/
theorem c2_input_polling (d : Dance) (f : FactorData) (st0 wrong correct : String)
    (r1 r2 : VerifyResponse)
    (h1 : r1.authn.status = "MFA_CHALLENGE")
    (h2 : r2.authn.status = "SUCCESS") :
    inputPerform d f (some [.ok wrong, .ok correct]) [r1, r2] st0 =
      ⟨[⟨verifyURL d f, [("passCode", wrong), ("stateToken", st0)], none⟩,
        ⟨verifyURL d f, [("passCode", correct), ("stateToken", r1.authn.stateToken)], none⟩],
       2, [2], .ok r2.authn.sessionToken⟩ ∧
    (∀ (codes : List (Except String String)) (responses : List VerifyResponse)
       (st : String),
       (∀ c ∈ codes, ∃ s, c = .ok s) →
       (∀ r ∈ responses, r.authn.status = "MFA_CHALLENGE" ∨ r.authn.status = "SUCCESS") →
       ∀ e, (inputPerform d f (some codes) responses st).outcome ≠ .err e) := by
  constructor
  · simp [inputPerform, h1, h2]
  · exact inputPerform_no_err_of_good_statuses d f

/-- Witness for C2: the wrong-then-correct run at concrete values. -/
theorem c2_input_polling_witness :
    inputPerform danceX factorX (some [.ok "000000", .ok "123456"])
        [challengeResp "st1", successResp "tok"] "st0" =
      ⟨[⟨verifyURL danceX factorX, [("passCode", "000000"), ("stateToken", "st0")], none⟩,
        ⟨verifyURL danceX factorX, [("passCode", "123456"), ("stateToken", "st1")], none⟩],
       2, [2], .ok "tok"⟩ ∧
    (inputPerform danceX factorX (some [.ok "000000", .ok "123456"])
        [challengeResp "st1", successResp "tok"] "st0").outcome ≠
      .err (.plain "challenge-body") := by
  have h := c2_input_polling danceX factorX "st0" "000000" "123456"
    (challengeResp "st1") (successResp "tok") rfl rfl
  refine ⟨h.1, ?_⟩
  exact h.2 [.ok "000000", .ok "123456"] [challengeResp "st1", successResp "tok"] "st0"
    (by intro c hc; simp only [List.mem_cons, List.not_mem_nil, or_false] at hc
        rcases hc with rfl | rfl
        exacts [⟨"000000", rfl⟩, ⟨"123456", rfl⟩])
    (by intro r hr; simp only [List.mem_cons, List.not_mem_nil, or_false] at hr
        rcases hr with rfl | rfl
        · exact Or.inl rfl
        · exact Or.inr rfl)
    (.plain "challenge-body")

/-- Every verify request the push loop sends is built by `http.NewRequest`
alone — no `WithContext` call occurs in the loop body, so no request
carries the caller's context. -/
theorem pushPerform_ctx_none (d : Dance) (f : FactorData) :
    ∀ (responses : List VerifyResponse) (st : String),
      ∀ r ∈ (pushPerform d f responses st).requests, r.ctx = none := by
  intro responses
  induction responses with
  | nil => intro st r hr; simp [pushPerform] at hr
  | cons x rest ih =>
    intro st r hr
    simp only [pushPerform] at hr
    by_cases h1 : x.authn.status = "SUCCESS"
    · rw [if_pos h1] at hr
      simp only [List.mem_singleton] at hr
      subst hr; rfl
    · rw [if_neg h1] at hr
      by_cases h2 : x.authn.status = "MFA_CHALLENGE"
      · rw [if_neg (by simp [h2])] at hr
        simp only [List.mem_cons] at hr
        rcases hr with rfl | hr
        · rfl
        · exact ih x.authn.stateToken r hr
      · rw [if_pos (by simp [h2])] at hr
        simp only [List.mem_singleton] at hr
        subst hr; rfl

/-- Every verify request the one-time-code loop sends is built by
`http.NewRequest` alone — no `WithContext` call occurs in the loop body,
so no request carries the caller's context. -/
theorem inputPerform_ctx_none (d : Dance) (f : FactorData) :
    ∀ (codes : Option (List (Except String String)))
      (responses : List VerifyResponse) (st : String),
      ∀ r ∈ (inputPerform d f codes responses st).requests, r.ctx = none := by
  intro codes
  match codes with
  | none => intro responses st r hr; simp [inputPerform] at hr
  | some cs =>
    induction cs with
    | nil => intro responses st r hr; simp [inputPerform] at hr
    | cons c cs ih =>
      intro responses st r hr
      match c with
      | .error e => simp [inputPerform] at hr
      | .ok code =>
        match responses with
        | [] => simp [inputPerform] at hr
        | x :: rest =>
          simp only [inputPerform] at hr
          by_cases h1 : x.authn.status = "SUCCESS"
          · rw [if_pos h1] at hr
            simp only [List.mem_singleton] at hr
            subst hr; rfl
          · rw [if_neg h1] at hr
            by_cases h2 : x.authn.status = "MFA_CHALLENGE"
            · rw [if_neg (by simp [h2])] at hr
              simp only [List.mem_cons] at hr
              rcases hr with rfl | hr
              · rfl
              · exact ih rest x.authn.stateToken r hr
            · rw [if_pos (by simp [h2])] at hr
              simp only [List.mem_singleton] at hr
              subst hr; rfl

/-- Claim C3 (code bug): the primary authentication request carries the
caller's context (`req = req.WithContext(ctx)`), but neither polling loop
does — `perform` never receives the context, every verify request it
sends carries none, and the inter-poll wait is an unconditional
`time.Sleep(2 * time.Second)` (the recorded fixed waits), so cancelling
the caller's context can neither abort the wait nor the pending verify
request, contradicting the specified cancellation behaviour. -/
theorem c3_poll_requests_carry_no_context (d : Dance) (f : FactorData)
    (ctxId : Nat) (username password : String)
    (codes : Option (List (Except String String)))
    (responses : List VerifyResponse) (st : String) :
    (authnRequest d ctxId username password).ctx = some ctxId ∧
    (∀ r ∈ (pushPerform d f responses st).requests, r.ctx = none) ∧
    (∀ r ∈ (inputPerform d f codes responses st).requests, r.ctx = none) :=
  ⟨rfl, pushPerform_ctx_none d f responses st, inputPerform_ctx_none d f codes responses st⟩

/-- Witness for C3: at the concrete three-response push script, the first
verify request of the trace carries no context while the primary request
carries the caller's. -/
theorem c3_poll_requests_witness :
    (authnRequest danceX 7 "user" "pw").ctx = some 7 ∧
    HttpRequest.ctx ⟨verifyURL danceX factorX, [("stateToken", "st0")], none⟩ = none := by
  have h := c3_poll_requests_carry_no_context danceX factorX 7 "user" "pw"
    (some []) [challengeResp "st1", challengeResp "st2", successResp "tok"] "st0"
  refine ⟨h.1, ?_⟩
  refine h.2.1 _ ?_
  simp [pushPerform, challengeResp, successResp]

/-- Counterexample to claim C4 as stated: `badSuccessResp`'s body fails to
decode, yet the push loop — which discards the `json.Unmarshal` error —
returns the (partially) decoded session token with no error at all, so
the decode failure is not returned to the caller. -/
theorem c4_decode_error_counterexample :
    badSuccessResp.unmarshalErr =
      some "json: cannot unmarshal number into Go struct field oktaUserAuthn._embedded" ∧
    (pushPerform danceX factorX [badSuccessResp] "st0").outcome = .ok "tok" ∧
    (pushPerform danceX factorX [badSuccessResp] "st0").outcome.isErr = false := by
  refine ⟨rfl, ?_, ?_⟩ <;> decide

/-- Claim C4 amended: `Authenticate` propagates a decode failure of its
primary response, and `Session` one of its body, as that error; but both
factor-verify loops discard the `json.Unmarshal` error and branch only on
the (partially) decoded status — a decode-failing verify response with
status `SUCCESS` still succeeds, and one with a non-challenge,
non-success status yields an error carrying the raw body, not the decode
failure. -/
theorem c4_decode_error_handling :
    (∀ (d : Dance) (mfa : Option MFAScript) (primary : AuthnResponse)
       (verify : List VerifyResponse) (e : String),
       primary.unmarshalErr = some e →
       Dance.Authenticate d mfa primary verify = ⟨[], 0, [], .err (.jsonDecode e)⟩) ∧
    (∀ (res : SessionResponse) (e : String),
       res.bodyReadErr = none → res.unmarshalErr = some e →
       Dance.Session res = .error (.jsonDecode e)) ∧
    (∀ (d : Dance) (f : FactorData) (r : VerifyResponse)
       (rest : List VerifyResponse) (st : String),
       r.authn.status = "SUCCESS" →
       (pushPerform d f (r :: rest) st).outcome = .ok r.authn.sessionToken) ∧
    (∀ (d : Dance) (f : FactorData) (r : VerifyResponse)
       (rest : List VerifyResponse) (st : String),
       r.authn.status ≠ "SUCCESS" → r.authn.status ≠ "MFA_CHALLENGE" →
       (pushPerform d f (r :: rest) st).outcome = .err (.plain r.body)) ∧
    (∀ (d : Dance) (f : FactorData) (code : String)
       (cs : List (Except String String)) (r : VerifyResponse)
       (rest : List VerifyResponse) (st : String),
       r.authn.status = "SUCCESS" →
       (inputPerform d f (some (.ok code :: cs)) (r :: rest) st).outcome =
         .ok r.authn.sessionToken) ∧
    (∀ (d : Dance) (f : FactorData) (code : String)
       (cs : List (Except String String)) (r : VerifyResponse)
       (rest : List VerifyResponse) (st : String),
       r.authn.status ≠ "SUCCESS" → r.authn.status ≠ "MFA_CHALLENGE" →
       (inputPerform d f (some (.ok code :: cs)) (r :: rest) st).outcome =
         .err (.plain r.body)) := by
  refine ⟨?_, ?_, ?_, ?_, ?_, ?_⟩
  · intro d mfa primary verify e h
    simp [Dance.Authenticate, h]
  · intro res e h1 h2
    simp [Dance.Session, h1, h2]
  · intro d f r rest st h
    simp [pushPerform, h]
  · intro d f r rest st h1 h2
    simp [pushPerform, h1, h2]
  · intro d f code cs r rest st h
    simp [inputPerform, h]
  · intro d f code cs r rest st h1 h2
    simp [inputPerform, h1, h2]

/-- Witness for C4's amended theorem: the primary decode failure is
returned by `Authenticate`, and a decode-failing verify response with
status `SUCCESS` still makes the push loop succeed. -/
theorem c4_decode_error_handling_witness :
    Dance.Authenticate danceX none ⟨"not json", OktaUserAuthn.zero, some "invalid character"⟩ [] =
      ⟨[], 0, [], .err (.jsonDecode "invalid character")⟩ ∧
    (pushPerform danceX factorX [badSuccessResp] "st0").outcome = .ok "tok" := by
  constructor
  · exact c4_decode_error_handling.1 danceX none
      ⟨"not json", OktaUserAuthn.zero, some "invalid character"⟩ [] "invalid character" rfl
  · exact c4_decode_error_handling.2.2.1 danceX factorX badSuccessResp [] "st0" rfl

/-- Counterexample to claim C5 as stated: a primary response offering two
factors with no MFA handler supplied makes `Authenticate` panic — a
method call on a nil `Multifactor` interface — rather than fail by
returning an error. -/
theorem c5_nil_handler_counterexample :
    (Dance.Authenticate danceX none twoFactorPrimary []).outcome =
      .crash "nil Multifactor: Select on nil interface" ∧
    (Dance.Authenticate danceX none twoFactorPrimary []).outcome.isErr = false := by
  refine ⟨?_, ?_⟩ <;> decide

/-- Claim C5 amended: on a primary response with status `MFA_REQUIRED`
offering two or more factors, `Authenticate` with no handler panics on
the nil-interface `Select` call (returning no error); with a handler
whose `Select` errors it returns that error wrapped, and with a handler
selecting no factor it returns an error — and in all three cases no
verify request is sent. -/
theorem c5_multi_factor_no_handler (d : Dance) (primary : AuthnResponse)
    (verify : List VerifyResponse) (f1 f2 : OktaUserAuthnFactor)
    (fs : List OktaUserAuthnFactor)
    (hu : primary.unmarshalErr = none)
    (hs : primary.authn.status = "MFA_REQUIRED")
    (hf : primary.authn.embedded.factors = f1 :: f2 :: fs) :
    Dance.Authenticate d none primary verify =
      ⟨[], 0, [], .crash "nil Multifactor: Select on nil interface"⟩ ∧
    (∀ (m : MFAScript) (e : String), m.selectResult = .error e →
      Dance.Authenticate d (some m) primary verify =
        ⟨[], 0, [], .err (.wrapped "error selecting MFA factor" e)⟩) ∧
    (∀ m : MFAScript, m.selectResult = .ok none →
      Dance.Authenticate d (some m) primary verify =
        ⟨[], 0, [], .err (.plain "no MFA was factor selected")⟩) := by
  refine ⟨?_, ?_, ?_⟩
  · simp [Dance.Authenticate, hu, hs, hf]
  · intro m e hm
    simp [Dance.Authenticate, hu, hs, hf, hm]
  · intro m hm
    simp [Dance.Authenticate, hu, hs, hf, hm]

/-- Witness for C5's amended theorem at the concrete two-factor response:
the nil-handler panic and the erroring-handler wrapped error. -/
theorem c5_multi_factor_no_handler_witness :
    Dance.Authenticate danceX none twoFactorPrimary [] =
      ⟨[], 0, [], .crash "nil Multifactor: Select on nil interface"⟩ ∧
    Dance.Authenticate danceX (some ⟨.error "boom", []⟩) twoFactorPrimary [] =
      ⟨[], 0, [], .err (.wrapped "error selecting MFA factor" "boom")⟩ ∧
    Dance.Authenticate danceX (some ⟨.ok none, []⟩) twoFactorPrimary [] =
      ⟨[], 0, [], .err (.plain "no MFA was factor selected")⟩ := by
  have h := c5_multi_factor_no_handler danceX twoFactorPrimary []
    ⟨"opfh52xcuft-id", "push", "OKTA"⟩ ⟨"ostf1fmEC-id", "token:software:totp", "OKTA"⟩ []
    rfl rfl rfl
  exact ⟨h.1, h.2.1 ⟨.error "boom", []⟩ "boom" rfl, h.2.2 ⟨.ok none, []⟩ rfl⟩

/-- Counterexample to claim C6 as stated: with zero factors offered the
error `Authenticate` returns reads `"MFA needed but no factoirs
available"`, not the claimed `"MFA required but no factor available"`. -/
theorem c6_zero_factors_counterexample :
    Dance.Authenticate danceX none zeroFactorPrimary [] =
      ⟨[], 0, [], .err (.plain "MFA needed but no factoirs available")⟩ ∧
    (Dance.Authenticate danceX none zeroFactorPrimary []).outcome ≠
      .err (.plain "MFA required but no factor available") := by
  refine ⟨?_, ?_⟩ <;> decide

/-- Claim C6 amended: on a primary response with status `MFA_REQUIRED`
offering zero factors, `Authenticate` fails with the configuration error
`errors.New("MFA needed but no factoirs available")` (sic) and sends no
verify request. -/
theorem c6_zero_factors_config_error (d : Dance) (mfa : Option MFAScript)
    (primary : AuthnResponse) (verify : List VerifyResponse)
    (hu : primary.unmarshalErr = none)
    (hs : primary.authn.status = "MFA_REQUIRED")
    (hf : primary.authn.embedded.factors = []) :
    Dance.Authenticate d mfa primary verify =
      ⟨[], 0, [], .err (.plain "MFA needed but no factoirs available")⟩ := by
  simp [Dance.Authenticate, hu, hs, hf]

/-- Witness for C6's amended theorem at the concrete zero-factor
response. -/
theorem c6_zero_factors_config_error_witness :
    Dance.Authenticate danceX none zeroFactorPrimary [] =
      ⟨[], 0, [], .err (.plain "MFA needed but no factoirs available")⟩ :=
  c6_zero_factors_config_error danceX none zeroFactorPrimary [] rfl rfl rfl

/-- Looking a key up after a Go map assignment: the assigned key maps to
the new value, every other key is unchanged. -/
theorem jlook_mapUpd (m : List (String × Json)) (k k' : String) (v : Json) :
    jlook (mapUpd m k v) k' = if k = k' then some v else jlook m k' := by
  induction m with
  | nil => simp [mapUpd, jlook]
  | cons p m ih =>
    rw [mapUpd]
    by_cases h : p.1 = k
    · rw [if_pos h]
      by_cases h2 : k = k' <;> simp [jlook, h, h2]
    · rw [if_neg h]
      by_cases h2 : k = k'
      · subst h2
        simp [jlook, h, ih]
      · simp [jlook, h2, ih]

/-- Folding Go map assignments over the decoded fields: lookup is the
last-wins lookup of the fields, falling back to the initial map. -/
theorem jlook_foldl_mapUpd (k : String) :
    ∀ (fields m : List (String × Json)),
      jlook (fields.foldl (fun acc p => mapUpd acc p.1 p.2) m) k =
        match jlookLast fields k with
        | some v => some v
        | none => jlook m k := by
  intro fields
  induction fields with
  | nil => intro m; rfl
  | cons p fields ih =>
    intro m
    rw [List.foldl_cons, ih (mapUpd m p.1 p.2)]
    cases hl : jlookLast fields k with
    | some v => simp [jlookLast, hl]
    | none =>
      rw [jlook_mapUpd]
      by_cases h : p.1 = k <;> simp [jlookLast, hl, h]

/-- `goUnmarshalMap` realises the JSON-object semantics: first-match
lookup in the resulting map is last-wins lookup in the original fields. -/
theorem jlook_goUnmarshalMap (fields : List (String × Json)) (k : String) :
    jlook (goUnmarshalMap fields) k = jlookLast fields k := by
  rw [goUnmarshalMap, jlook_foldl_mapUpd]
  cases jlookLast fields k <;> rfl

/-- Key membership after a Go map assignment. -/
theorem mem_keysOf_mapUpd (m : List (String × Json)) (k : String) (v : Json)
    (a : String) :
    a ∈ keysOf (mapUpd m k v) ↔ a = k ∨ a ∈ keysOf m := by
  induction m with
  | nil => simp [mapUpd, keysOf]
  | cons p m ih =>
    rw [mapUpd]
    by_cases h : p.1 = k
    · rw [if_pos h]
      simp only [keysOf, List.map_cons, List.mem_cons] at *
      rw [h]
      tauto
    · rw [if_neg h]
      simp only [keysOf, List.map_cons, List.mem_cons] at *
      rw [ih]
      tauto

/-- A Go map assignment preserves key uniqueness. -/
theorem nodup_keysOf_mapUpd (m : List (String × Json)) (k : String) (v : Json)
    (h : (keysOf m).Nodup) : (keysOf (mapUpd m k v)).Nodup := by
  induction m with
  | nil => simp [mapUpd, keysOf]
  | cons p m ih =>
    rw [keysOf, List.map_cons, List.nodup_cons] at h
    rw [mapUpd]
    by_cases hpk : p.1 = k
    · rw [if_pos hpk]
      rw [keysOf, List.map_cons, List.nodup_cons]
      exact ⟨hpk ▸ h.1, h.2⟩
    · rw [if_neg hpk]
      rw [keysOf, List.map_cons, List.nodup_cons]
      refine ⟨?_, ih h.2⟩
      intro hmem
      rcases (mem_keysOf_mapUpd m k v p.1).1 hmem with hk | hk
      · exact hpk hk
      · exact h.1 hk

/-- The map Go's decoder builds from the fields has unique keys. -/
theorem nodup_keysOf_goUnmarshalMap (fields : List (String × Json)) :
    (keysOf (goUnmarshalMap fields)).Nodup := by
  have aux : ∀ (fs m : List (String × Json)), (keysOf m).Nodup →
      (keysOf (fs.foldl (fun acc p => mapUpd acc p.1 p.2) m)).Nodup := by
    intro fs
    induction fs with
    | nil => intro m hm; exact hm
    | cons p fs ih =>
      intro m hm
      rw [List.foldl_cons]
      exact ih _ (nodup_keysOf_mapUpd m p.1 p.2 hm)
  exact aux fields [] (by simp [keysOf])

/-- Key membership after a sorted insertion. -/
theorem mem_keysOf_insortKey (p : String × Json) (m : List (String × Json))
    (a : String) :
    a ∈ keysOf (insortKey p m) ↔ a = p.1 ∨ a ∈ keysOf m := by
  induction m with
  | nil => simp [insortKey, keysOf]
  | cons q m ih =>
    rw [insortKey]
    by_cases h : p.1 ≤ q.1
    · rw [if_pos h]
      simp [keysOf]
    · rw [if_neg h]
      simp only [keysOf, List.map_cons, List.mem_cons] at *
      rw [ih]
      tauto

/-- Inserting a fresh key into a list preserves lookups: the inserted
binding behaves as if prepended. -/
theorem jlook_insortKey (p : String × Json) (m : List (String × Json))
    (k : String) (h : p.1 ∉ keysOf m) :
    jlook (insortKey p m) k = jlook (p :: m) k := by
  induction m with
  | nil => rfl
  | cons q m ih =>
    rw [keysOf, List.map_cons, List.mem_cons] at h
    push_neg at h
    rw [insortKey]
    by_cases hle : p.1 ≤ q.1
    · rw [if_pos hle]
    · rw [if_neg hle]
      by_cases h1 : q.1 = k
      · by_cases h2 : p.1 = k
        · exact absurd (h2.trans h1.symm) h.1
        · simp [jlook, h1, h2]
      · simp [jlook, h1, ih h.2]

/-- Membership in the keys survives sorting. -/
theorem mem_keysOf_sortByKey (m : List (String × Json)) (a : String) :
    a ∈ keysOf (sortByKey m) ↔ a ∈ keysOf m := by
  induction m with
  | nil => simp [sortByKey]
  | cons p m ih =>
    rw [sortByKey, mem_keysOf_insortKey]
    simp only [keysOf, List.map_cons, List.mem_cons] at *
    rw [ih]

/-- Sorting an association list with unique keys preserves lookups. -/
theorem jlook_sortByKey (m : List (String × Json)) (k : String)
    (h : (keysOf m).Nodup) : jlook (sortByKey m) k = jlook m k := by
  induction m with
  | nil => rfl
  | cons p m ih =>
    rw [keysOf, List.map_cons, List.nodup_cons] at h
    rw [sortByKey, jlook_insortKey p (sortByKey m) k
      (fun hm => h.1 ((mem_keysOf_sortByKey m p.1).1 hm))]
    simp [jlook, ih h.2]

/-- The whole pretty-JSON rewrite of a JSON object — decode into a map,
re-encode with sorted keys — preserves the object's key → value mapping
(duplicate keys collapsing to the last occurrence, as JSON object
semantics dictates). -/
theorem jlook_rewrite_obj (fields : List (String × Json)) (k : String) :
    jlook (sortByKey (goUnmarshalMap fields)) k = jlookLast fields k := by
  rw [jlook_sortByKey _ _ (nodup_keysOf_goUnmarshalMap fields),
    jlook_goUnmarshalMap]

/-- Counterexample to claim C8 as stated: with the pretty-JSON option set,
a response body that is not a JSON object (here a plain-text error body)
is replaced by the empty JSON object `{}` — the `Unmarshal` error is
overwritten unchecked and the empty map is re-marshalled — so the hook
does alter the bytes' JSON content. -/
theorem c8_hooks_counterexample :
    postBody prettyDanceX (some (.invalid "Bad Gateway")) = some (.val (.obj [])) ∧
    postBody prettyDanceX (some (.invalid "Bad Gateway")) ≠ some (.invalid "Bad Gateway") := by
  refine ⟨rfl, ?_⟩
  intro h
  have h' : some (HttpBody.val (Json.obj [])) = some (HttpBody.invalid "Bad Gateway") := h
  injection h' with h1
  exact HttpBody.noConfusion h1

/-- Claim C8 amended: with the pretty-JSON option off both hooks leave
every body unchanged; with it on, both hooks apply the same rewrite — a
JSON-object body is re-encoded with the same key → value mapping (keys
sorted, later duplicates winning), a top-level JSON `null` body is left
unchanged (`Unmarshal` of `null` nils the map without error and
`MarshalIndent` of a nil map emits `null`), while any other body
(non-object, non-null JSON, or invalid bytes) is replaced by the empty
JSON object, altering the message. -/
theorem c8_hooks_body_rewrite (d : Dance) :
    (d.prettyJSON = false → ∀ b, preBody d b = b ∧ postBody d b = b) ∧
    (d.prettyJSON = true → ∀ (fields : List (String × Json)) (k : String),
      postBody d (some (.val (.obj fields))) =
        some (.val (.obj (sortByKey (goUnmarshalMap fields)))) ∧
      jlook (sortByKey (goUnmarshalMap fields)) k = jlookLast fields k) ∧
    (rewriteJSON (.val .null) = .val .null) ∧
    (∀ b : HttpBody, rewriteJSON b = .val (.obj []) ∨ b = .val .null ∨
      ∃ fields, b = .val (.obj fields)) ∧
    (∀ b, preBody d b = postBody d b) := by
  refine ⟨?_, ?_, rfl, ?_, ?_⟩
  · intro hp b
    cases b with
    | none => exact ⟨rfl, rfl⟩
    | some b => simp [preBody, postBody, hp]
  · intro hp fields k
    refine ⟨?_, jlook_rewrite_obj fields k⟩
    simp [postBody, hp, rewriteJSON]
  · intro b
    cases b with
    | invalid raw => exact Or.inl rfl
    | val j =>
      cases j with
      | obj fields => exact Or.inr (Or.inr ⟨fields, rfl⟩)
      | null => exact Or.inr (Or.inl rfl)
      | bool b => exact Or.inl rfl
      | num n => exact Or.inl rfl
      | str s => exact Or.inl rfl
      | arr xs => exact Or.inl rfl
  · intro b
    cases b with
    | none => rfl
    | some b => rfl

/-- Witness for C8's amended theorem: a body is untouched without
pretty-JSON; with it, a `null` body stays `null` and an object body is
re-encoded key-sorted with its lookups intact. -/
theorem c8_hooks_body_rewrite_witness :
    postBody danceX (some (.invalid "zzz")) = some (.invalid "zzz") ∧
    postBody prettyDanceX (some (.val .null)) = some (.val .null) ∧
    postBody prettyDanceX (some (.val (.obj [("b", .num 1), ("a", .num 2)]))) =
      some (.val (.obj [("a", .num 2), ("b", .num 1)])) ∧
    jlook (sortByKey (goUnmarshalMap [("b", .num 1), ("a", .num 2)])) "a" =
      jlookLast [("b", .num 1), ("a", .num 2)] "a" := by
  refine ⟨((c8_hooks_body_rewrite danceX).1 rfl _).2, ?_, ?_, ?_⟩
  · show some (rewriteJSON (.val .null)) = some (.val .null)
    rw [(c8_hooks_body_rewrite prettyDanceX).2.2.1]
  · have h := ((c8_hooks_body_rewrite prettyDanceX).2.1 rfl
      [("b", .num 1), ("a", .num 2)] "a").1
    rw [h]
    have hs : sortByKey (goUnmarshalMap [("b", Json.num 1), ("a", Json.num 2)]) =
        [("a", Json.num 2), ("b", Json.num 1)] := by
      simp only [goUnmarshalMap, List.foldl_cons, List.foldl_nil, mapUpd, sortByKey,
        insortKey]
      norm_num
      decide
    rw [hs]
  · exact ((c8_hooks_body_rewrite prettyDanceX).2.1 rfl
      [("b", .num 1), ("a", .num 2)] "a").2

end Oktadance
